import Mathlib

/-!
Shallow embedding of `src/employee-app/app.py` (a Flask CRUD application over
a single `employees` table) and proofs about its request handlers.

Modelling conventions:
* The relational store is a `Store`: a list of rows plus the next value of the
  `id` sequence (Postgres serial primary key).
* Python exceptions surfacing from the handlers are mapped to the spec's error
  taxonomy: `KeyError` (missing form field) and `ValueError` (failed
  `float`/`strptime` parse) and unknown `Department[...]` keys become
  `validationError`; the unique-constraint `IntegrityError` raised at commit
  becomes `conflictError`; `get_or_404` becomes `notFoundError`.
* Python `float` values are modelled by `Rat`, the exact value of the decimal
  literal; this abstraction is adequate for the sign/parse properties proved
  here.  `pyFloat` models the decimal-literal fragment of Python's `float()`
  (optional surrounding whitespace, sign, digits, fraction, exponent);
  `inf`/`nan` and underscore separators are omitted.
* `parseDateYMD` models `datetime.strptime(s, "%Y-%m-%d")`: four year digits,
  one or two month and day digits, with calendar validation (leap years).
-/

namespace EmployeeApp

/-- Error taxonomy of the specification (section 7). -/
inductive AppError where
  | validationError
  | conflictError
  | notFoundError
deriving DecidableEq, Repr

/-- `class Department(enum.Enum)` from `app.py` lines 53-59: member names are
the codes, member values the display strings. -/
inductive Department where
  | HR
  | ENGINEERING
  | SALES
  | MARKETING
  | FINANCE
  | IT
deriving DecidableEq, Repr

/-- The `.value` of each enum member. -/
def Department.value : Department → String
  | .HR => "Human Resources"
  | .ENGINEERING => "Engineering"
  | .SALES => "Sales"
  | .MARKETING => "Marketing"
  | .FINANCE => "Finance"
  | .IT => "IT Support"

/-- `Department[s]`: lookup of an enum member by its name; `none` models the
`KeyError` raised on an unknown key. -/
def Department.fromKey? (s : String) : Option Department :=
  if s = "HR" then some .HR
  else if s = "ENGINEERING" then some .ENGINEERING
  else if s = "SALES" then some .SALES
  else if s = "MARKETING" then some .MARKETING
  else if s = "FINANCE" then some .FINANCE
  else if s = "IT" then some .IT
  else none

/-- The list of member names of `Department`. -/
def Department.names : List String :=
  ["HR", "ENGINEERING", "SALES", "MARKETING", "FINANCE", "IT"]

/-- A calendar date as parsed by `datetime.strptime(_, "%Y-%m-%d")`. -/
structure Date where
  year : Nat
  month : Nat
  day : Nat
deriving DecidableEq, Repr

/-- Gregorian leap-year rule, as in Python's `datetime`. -/
def isLeap (y : Nat) : Bool :=
  y % 4 == 0 && (y % 100 != 0 || y % 400 == 0)

/-- Number of days of month `m` in year `y` (31 for out-of-range `m`, which
the caller rejects separately). -/
def daysInMonth (y m : Nat) : Nat :=
  if m == 2 then (if isLeap y then 29 else 28)
  else if m == 4 || m == 6 || m == 9 || m == 11 then 30
  else 31

/-- Numeric value of a string of decimal digits. -/
def digitsToNat (cs : List Char) : Nat :=
  cs.foldl (fun n c => n * 10 + (c.toNat - 48)) 0

/-- Nonempty and all characters are decimal digits. -/
def allDigits (cs : List Char) : Bool :=
  !cs.isEmpty && cs.all (·.isDigit)

/-- Splits a character list at every occurrence of `sep` (the pieces do not
contain `sep`; `n` separators yield `n + 1` pieces). -/
def splitOnChar (sep : Char) : List Char → List (List Char)
  | [] => [[]]
  | c :: cs =>
      let r := splitOnChar sep cs
      if c == sep then [] :: r
      else
        match r with
        | [] => [[c]]
        | h :: t => (c :: h) :: t

/-- Models `datetime.strptime(s, "%Y-%m-%d")` followed by the `datetime`
range checks: `%Y` is exactly four digits, `%m` and `%d` one or two digits,
month in 1..12, day in 1..days-of-month, year at least 1. -/
def parseDateYMD (s : String) : Option Date :=
  match splitOnChar '-' s.data with
  | [ys, ms, ds] =>
      if allDigits ys && ys.length == 4
          && allDigits ms && ms.length ≤ 2
          && allDigits ds && ds.length ≤ 2 then
        let y := digitsToNat ys
        let m := digitsToNat ms
        let d := digitsToNat ds
        if 1 ≤ y && 1 ≤ m && m ≤ 12 && 1 ≤ d && d ≤ daysInMonth y m then
          some ⟨y, m, d⟩
        else none
      else none
  | _ => none

/-- Splits the longest run of leading decimal digits from a character list. -/
def takeDigits : List Char → List Char × List Char
  | [] => ([], [])
  | c :: cs =>
      if c.isDigit then
        let (d, r) := takeDigits cs
        (c :: d, r)
      else ([], c :: cs)

/-- Value of a parsed decimal literal: sign, integer digits, fraction digits,
exponent. -/
def decimalValue (sgn : Int) (ip fp : List Char) (ex : Int) : Rat :=
  let m : Int := sgn * (digitsToNat (ip ++ fp) : Int)
  if 0 ≤ ex then
    mkRat (m * ((10 ^ ex.toNat : Nat) : Int)) (10 ^ fp.length)
  else
    mkRat m (10 ^ fp.length * 10 ^ (-ex).toNat)

/-- Parses an optional exponent suffix (`e`/`E`, optional sign, digits) which
must consume the whole remaining input. -/
def parseExponent : List Char → Option Int
  | [] => some 0
  | c :: cs =>
      if c == 'e' || c == 'E' then
        let (sgn, rest) : Int × List Char :=
          match cs with
          | '+' :: r => (1, r)
          | '-' :: r => (-1, r)
          | r => (1, r)
        let (ed, rest2) := takeDigits rest
        if ed.isEmpty || !rest2.isEmpty then none
        else some (sgn * (digitsToNat ed : Int))
      else none

/-- ASCII whitespace stripped by `float()`. -/
def isSpaceChar (c : Char) : Bool :=
  c == ' ' || c == '\t' || c == '\n' || c == '\r'

/-- Strips leading and trailing whitespace. -/
def trimChars (cs : List Char) : List Char :=
  ((cs.dropWhile isSpaceChar).reverse.dropWhile isSpaceChar).reverse

/-- Models Python's `float(s)` on the decimal-literal fragment (see module
doc): strips surrounding whitespace, then optional sign, digits with optional
fraction, optional exponent; `none` models the `ValueError` raised otherwise. -/
def pyFloat (s : String) : Option Rat :=
  let cs := trimChars s.data
  let (sgn, rest) : Int × List Char :=
    match cs with
    | '+' :: r => (1, r)
    | '-' :: r => (-1, r)
    | r => (1, r)
  let (ip, rest1) := takeDigits rest
  let (fp, rest2) :=
    match rest1 with
    | '.' :: r => takeDigits r
    | r => ([], r)
  if ip.isEmpty && fp.isEmpty then none
  else
    match parseExponent rest2 with
    | some ex => some (decimalValue sgn ip fp ex)
    | none => none

/-- A row of the `employees` table (`class Employee(db.Model)`). -/
structure Employee where
  id : Nat
  first_name : String
  last_name : String
  email : String
  department : Department
  salary : Rat
  hire_date : Date
deriving DecidableEq, Repr

/-- The relational store: the rows of the one table plus the next value of the
serial `id` sequence. -/
structure Store where
  rows : List Employee
  nextId : Nat
deriving DecidableEq, Repr

/-- The ids currently present in the store. -/
def Store.ids (s : Store) : List Nat :=
  s.rows.map (·.id)

/-- Store well-formedness: ids are distinct (primary key), every id is below
the sequence counter, and emails are distinct (unique constraint). -/
def Store.WF (s : Store) : Prop :=
  (s.rows.map (·.id)).Nodup
    ∧ (∀ e ∈ s.rows, e.id < s.nextId)
    ∧ (s.rows.map (·.email)).Nodup

instance (s : Store) : Decidable s.WF := by
  unfold Store.WF; infer_instance

/-- An HTML form submission: `request.form`, each field possibly absent
(`request.form[k]` raises `KeyError` when absent). -/
structure Form where
  first_name : Option String
  last_name : Option String
  email : Option String
  department : Option String
  salary : Option String
  hire_date : Option String
deriving DecidableEq, Repr

/-- `db.session.add(new Employee(...)); db.session.commit()`: the unique
constraint on `email` rejects a duplicate (`conflictError`); otherwise the row
is inserted with the next serial id.  `hd` is the optional `hire_date`; the
column default `datetime.utcnow` (line 70 of `app.py`) fills in `today` when
it is absent. -/
def insertEmployee (today : Date) (s : Store) (fn ln em : String)
    (dep : Department) (sal : Rat) (hd : Option Date) :
    Except AppError (Store × Employee) :=
  if s.rows.any (fun r => r.email == em) then .error .conflictError
  else
    let e : Employee :=
      { id := s.nextId, first_name := fn, last_name := ln, email := em,
        department := dep, salary := sal, hire_date := hd.getD today }
    .ok ({ rows := s.rows ++ [e], nextId := s.nextId + 1 }, e)

/-- The POST branch of the `hire` handler (lines 114-141): builds the new
`Employee` from the form, evaluating the constructor arguments left to right
as Python does (a missing field raises `KeyError`, an unknown department code
raises at `Department[...]`, `float` and `strptime` raise `ValueError`; all
are mapped to `validationError`), then adds and commits. -/
def hireCore (today : Date) (s : Store) (f : Form) :
    Except AppError (Store × Employee) :=
  match f.first_name with
  | none => .error .validationError
  | some fn =>
  match f.last_name with
  | none => .error .validationError
  | some ln =>
  match f.email with
  | none => .error .validationError
  | some em =>
  match f.department.bind Department.fromKey? with
  | none => .error .validationError
  | some dep =>
  match f.salary.bind pyFloat with
  | none => .error .validationError
  | some sal =>
  match f.hire_date.bind parseDateYMD with
  | none => .error .validationError
  | some hd => insertEmployee today s fn ln em dep sal (some hd)

/-- The handler's response: a redirect to the listing on success, or the
re-rendered form carrying the flashed error. -/
inductive Response where
  | redirectIndex
  | renderForm (err : Option AppError)
deriving DecidableEq, Repr

/-- The `hire` POST handler: on success the commit is kept and the client is
redirected to `index`; on any exception the session is rolled back (the store
is unchanged) and the form is re-rendered with the error flashed. -/
def hirePost (today : Date) (s : Store) (f : Form) : Store × Response :=
  match hireCore today s f with
  | .ok (s2, _) => (s2, .redirectIndex)
  | .error e => (s, .renderForm (some e))

/-- Insertion step of sorting by descending id. -/
def byIdDesc (a b : Employee) : Prop := b.id ≤ a.id

instance : DecidableRel byIdDesc := fun a b => Nat.decLe b.id a.id

instance : IsTotal Employee byIdDesc :=
  ⟨fun a b => (Nat.le_total b.id a.id).imp id id⟩

instance : IsTrans Employee byIdDesc :=
  ⟨fun _ _ _ h1 h2 => Nat.le_trans h2 h1⟩

/-- `Employee.query.order_by(Employee.id.desc()).all()`. -/
def sortByIdDesc (l : List Employee) : List Employee :=
  l.insertionSort byIdDesc

/-- Whether `needle` is an initial segment of `hay`. -/
def startsWith : List Char → List Char → Bool
  | [], _ => true
  | _ :: _, [] => false
  | a :: as, b :: bs => a == b && startsWith as bs

/-- Whether `needle` occurs contiguously in `hay`. -/
def containsSub (needle : List Char) : List Char → Bool
  | [] => needle.isEmpty
  | c :: t => startsWith needle (c :: t) || containsSub needle t

/-- The specification's reading of the non-numeric search: literal
case-insensitive substring containment (ASCII case folding).  The code-side
semantics is `emailIlike`; the two coincide exactly when the query contains
no LIKE metacharacter (`emailIlike_eq_containsCI`). -/
def containsCI (hay q : String) : Bool :=
  containsSub (q.data.map Char.toLower) (hay.data.map Char.toLower)

/-- Whether `f` accepts some suffix of the list (including the empty one). -/
def anySuffix (f : List Char → Bool) : List Char → Bool
  | [] => f []
  | c :: t => f (c :: t) || anySuffix f t

/-- SQL `LIKE` pattern matching (Postgres semantics): `%` matches any
sequence, `_` matches exactly one character, `\` escapes the next pattern
character.  A pattern ending in a lone escape character is an error in
Postgres ("LIKE pattern must not end with escape character") and is
unreachable through the handler, whose pattern always ends with an appended
`%`; it is modelled as matching nothing. -/
def likeMatch : List Char → List Char → Bool
  | [], t => t.isEmpty
  | c :: p, t =>
      if c == '%' then anySuffix (fun u => likeMatch p u) t
      else if c == '_' then
        match t with
        | [] => false
        | _ :: t2 => likeMatch p t2
      else if c == '\\' then
        match p with
        | [] => false
        | e :: p2 =>
          match t with
          | [] => false
          | d :: t2 => e == d && likeMatch p2 t2
      else
        match t with
        | [] => false
        | d :: t2 => c == d && likeMatch p t2

/-- The pattern built by the handler's f-string `f"%{query}%"`. -/
def ilikePattern (q : String) : List Char :=
  '%' :: (q.data ++ ['%'])

/-- `Employee.email.ilike(f"%{q}%")`: case-insensitive `LIKE` match of the
email against the pattern `%q%` (ASCII case folding), with `%`/`_` in the
query acting as wildcards and `\` as the escape character. -/
def emailIlike (email q : String) : Bool :=
  likeMatch ((ilikePattern q).map Char.toLower) (email.data.map Char.toLower)

/-- The query contains no `LIKE` metacharacter. -/
def noLikeMeta (cs : List Char) : Prop :=
  ∀ c ∈ cs, c ≠ '%' ∧ c ≠ '_' ∧ c ≠ '\\'

instance (cs : List Char) : Decidable (noLikeMeta cs) := by
  unfold noLikeMeta; infer_instance

/-- `query.isdigit()` (ASCII): nonempty and all characters are digits. -/
def isdigitStr (q : String) : Bool :=
  allDigits q.data

/-- The `index` handler (lines 97-110): `q` absent or empty (Python falsiness
of `None` and `""`) lists everything by descending id; a digit-only `q` is an
exact id match; any other `q` is a case-insensitive email substring search. -/
def index (s : Store) (q : Option String) : List Employee :=
  match q with
  | some query =>
      if query ≠ "" then
        if isdigitStr query then
          s.rows.filter (fun e => e.id == digitsToNat query.data)
        else
          s.rows.filter (fun e => emailIlike e.email query)
      else sortByIdDesc s.rows
  | none => sortByIdDesc s.rows

/-- The field-by-field mutation block of the `edit` POST handler (lines
151-157): each form field is fetched and coerced in source order and assigned
to the in-memory ORM object; the first failure aborts the block, leaving the
earlier assignments in place on the object. -/
def editFields (f : Form) (e : Employee) : Employee × Option AppError :=
  match f.first_name with
  | none => (e, some .validationError)
  | some fn =>
    let e1 := { e with first_name := fn }
    match f.last_name with
    | none => (e1, some .validationError)
    | some ln =>
      let e2 := { e1 with last_name := ln }
      match f.email with
      | none => (e2, some .validationError)
      | some em =>
        let e3 := { e2 with email := em }
        match f.department.bind Department.fromKey? with
        | none => (e3, some .validationError)
        | some dep =>
          let e4 := { e3 with department := dep }
          match f.salary.bind pyFloat with
          | none => (e4, some .validationError)
          | some sal =>
            let e5 := { e4 with salary := sal }
            match f.hire_date.bind parseDateYMD with
            | none => (e5, some .validationError)
            | some hd => ({ e5 with hire_date := hd }, none)

/-- `db.session.commit()` of the `edit` handler: the unique constraint on
`email` rejects the update when another row already has the new email;
otherwise the row with the edited id is replaced. -/
def commitUpdate (s : Store) (i : Nat) (mem : Employee) :
    Except AppError Store :=
  if s.rows.any (fun r => r.id != i && r.email == mem.email) then
    .error .conflictError
  else
    .ok { s with rows := s.rows.map (fun r => if r.id == i then mem else r) }

/-- Outcome of the `edit` POST handler. -/
inductive EditOutcome where
  /-- `get_or_404` failed: no row with the requested id. -/
  | notFound
  /-- An exception was flashed and the form re-rendered; `mem` is the state of
  the in-memory ORM object at that point (no rollback is performed). -/
  | failed (err : AppError) (mem : Employee)
  /-- Commit succeeded; redirect to the listing. -/
  | okRedirect
deriving DecidableEq, Repr

/-- The `edit` POST handler (lines 145-168): `get_or_404`, then the mutation
block, then commit.  The second component is the persisted store after the
request. -/
def edit (s : Store) (i : Nat) (f : Form) : EditOutcome × Store :=
  match s.rows.find? (fun r => r.id == i) with
  | none => (.notFound, s)
  | some e =>
    match editFields f e with
    | (mem, some err) => (.failed err mem, s)
    | (mem, none) =>
      match commitUpdate s i mem with
      | .error err => (.failed err mem, s)
      | .ok s2 => (.okRedirect, s2)

/-- Outcome of the `fire` handler. -/
inductive FireOutcome where
  /-- `get_or_404` failed: no row with the requested id. -/
  | notFound
  /-- The row was deleted and committed; redirect to the listing. -/
  | redirect
deriving DecidableEq, Repr

/-- The `fire` handler (lines 172-189): `get_or_404`, then delete and commit
(a delete by primary key), then redirect to the listing. -/
def fire (s : Store) (i : Nat) : FireOutcome × Store :=
  if s.rows.any (fun r => r.id == i) then
    (.redirect, { s with rows := s.rows.filter (fun r => r.id != i) })
  else (.notFound, s)

/-- An empty store whose id sequence starts at 1, as for a fresh table. -/
def emptyStore : Store := { rows := [], nextId := 1 }

/-- A fully valid hire form, used to instantiate the theorems. -/
def sampleForm : Form :=
  { first_name := some "Ann", last_name := some "Lee",
    email := some "ann@x.com", department := some "ENGINEERING",
    salary := some "90000", hire_date := some "2024-01-15" }

/-- A fixed current date, used to instantiate the theorems. -/
def sampleToday : Date := ⟨2025, 1, 1⟩

/-- A concrete stored row, used to instantiate the theorems. -/
def sampleEmployee1 : Employee :=
  { id := 1, first_name := "Ann", last_name := "Lee", email := "ann@x.com",
    department := .ENGINEERING, salary := 90000,
    hire_date := ⟨2024, 1, 15⟩ }

/-- A second concrete stored row, used to instantiate the theorems. -/
def sampleEmployee2 : Employee :=
  { id := 2, first_name := "Bob", last_name := "Ray", email := "bob@y.com",
    department := .HR, salary := 50000, hire_date := ⟨2023, 5, 2⟩ }

/-- A concrete store with two rows, used to instantiate the theorems. -/
def sampleStore : Store :=
  { rows := [sampleEmployee1, sampleEmployee2], nextId := 3 }

/-! Helper lemmas -/

lemma mem_sortByIdDesc {e : Employee} {l : List Employee} :
    e ∈ sortByIdDesc l ↔ e ∈ l :=
  (List.perm_insertionSort byIdDesc l).mem_iff

/-! Claims -/

/-- C1: a hire input whose fields are all present and valid (department code
maps to an enum member, salary and hire date parse, email not already in the
store) persists exactly one new record whose fields match the submitted
values, with the fresh serial id, and redirects to the listing, where the
record appears. -/
theorem hire_valid_spec
    (today : Date) (s : Store) (f : Form)
    (fn ln em ds ss hs : String) (dep : Department) (sal : Rat) (hd : Date)
    (hwf : s.WF)
    (hfn : f.first_name = some fn) (hln : f.last_name = some ln)
    (hem : f.email = some em) (hds : f.department = some ds)
    (hdep : Department.fromKey? ds = some dep)
    (hss : f.salary = some ss) (hsal : pyFloat ss = some sal)
    (hhs : f.hire_date = some hs) (hhd : parseDateYMD hs = some hd)
    (hfresh : ∀ r ∈ s.rows, r.email ≠ em) :
    ∃ e : Employee,
      hireCore today s f
          = .ok ({ rows := s.rows ++ [e], nextId := s.nextId + 1 }, e)
        ∧ e.first_name = fn ∧ e.last_name = ln ∧ e.email = em
        ∧ e.department = dep ∧ e.salary = sal ∧ e.hire_date = hd
        ∧ e.id = s.nextId ∧ e.id ∉ s.ids
        ∧ (hirePost today s f).2 = .redirectIndex
        ∧ e ∈ index (hirePost today s f).1 none := by
  have hany : ¬ ∃ x ∈ s.rows, x.email = em := by
    rintro ⟨x, hx, hxe⟩
    exact hfresh x hx hxe
  have hcore : hireCore today s f
      = .ok ({ rows := s.rows ++
                 [{ id := s.nextId, first_name := fn, last_name := ln,
                    email := em, department := dep, salary := sal,
                    hire_date := hd }],
               nextId := s.nextId + 1 },
             { id := s.nextId, first_name := fn, last_name := ln,
               email := em, department := dep, salary := sal,
               hire_date := hd }) := by
    simp [hireCore, hfn, hln, hem, hds, hss, hhs, Option.bind, hdep, hsal,
      hhd, insertEmployee, hany, Option.getD]
  refine ⟨_, hcore, rfl, rfl, rfl, rfl, rfl, rfl, rfl, ?_, ?_, ?_⟩
  · intro hmem
    obtain ⟨r, hr, hid⟩ := List.mem_map.mp hmem
    exact absurd hid (Nat.ne_of_lt (hwf.2.1 r hr))
  · simp [hirePost, hcore]
  · simp only [hirePost, hcore, index]
    exact mem_sortByIdDesc.mpr (by simp)

/-- C1 witness: hiring Ann Lee into an empty store. -/
theorem hire_valid_spec_witness :
    ∃ e : Employee,
      hireCore sampleToday emptyStore sampleForm
          = .ok ({ rows := emptyStore.rows ++ [e],
                   nextId := emptyStore.nextId + 1 }, e)
        ∧ e.first_name = "Ann" ∧ e.last_name = "Lee" ∧ e.email = "ann@x.com"
        ∧ e.department = .ENGINEERING ∧ e.salary = 90000
        ∧ e.hire_date = ⟨2024, 1, 15⟩
        ∧ e.id = emptyStore.nextId ∧ e.id ∉ emptyStore.ids
        ∧ (hirePost sampleToday emptyStore sampleForm).2 = .redirectIndex
        ∧ e ∈ index (hirePost sampleToday emptyStore sampleForm).1 none :=
  hire_valid_spec sampleToday emptyStore sampleForm
    "Ann" "Lee" "ann@x.com" "ENGINEERING" "90000" "2024-01-15"
    .ENGINEERING 90000 ⟨2024, 1, 15⟩
    (by decide) rfl rfl rfl rfl (by decide) rfl (by decide) rfl (by decide)
    (by simp [emptyStore])

/-- C2: hiring with an email already present in the store (the other fields
being present and parseable, so that the constructor succeeds and the insert
is attempted) fails with `conflictError`, the transaction is rolled back, and
the store — hence the employee count and every existing record — is
unchanged. -/
theorem hire_duplicate_email_conflict
    (today : Date) (s : Store) (f : Form)
    (fn ln em ds ss hs : String) (dep : Department) (sal : Rat) (hd : Date)
    (hfn : f.first_name = some fn) (hln : f.last_name = some ln)
    (hem : f.email = some em) (hds : f.department = some ds)
    (hdep : Department.fromKey? ds = some dep)
    (hss : f.salary = some ss) (hsal : pyFloat ss = some sal)
    (hhs : f.hire_date = some hs) (hhd : parseDateYMD hs = some hd)
    (r : Employee) (hr : r ∈ s.rows) (hrem : r.email = em) :
    hireCore today s f = .error .conflictError
      ∧ (hirePost today s f).1 = s
      ∧ (hirePost today s f).1.rows.length = s.rows.length := by
  have hdup : ∃ x ∈ s.rows, x.email = em := ⟨r, hr, hrem⟩
  have hcore : hireCore today s f = .error .conflictError := by
    simp [hireCore, hfn, hln, hem, hds, hss, hhs, Option.bind, hdep, hsal,
      hhd, insertEmployee, hdup]
  exact ⟨hcore, by simp [hirePost, hcore], by simp [hirePost, hcore]⟩

/-- C2 witness: re-hiring Ann's email into the two-row store. -/
theorem hire_duplicate_email_conflict_witness :
    hireCore sampleToday sampleStore sampleForm = .error .conflictError
      ∧ (hirePost sampleToday sampleStore sampleForm).1 = sampleStore
      ∧ (hirePost sampleToday sampleStore sampleForm).1.rows.length
          = sampleStore.rows.length :=
  hire_duplicate_email_conflict sampleToday sampleStore sampleForm
    "Ann" "Lee" "ann@x.com" "ENGINEERING" "90000" "2024-01-15"
    .ENGINEERING 90000 ⟨2024, 1, 15⟩
    rfl rfl rfl rfl (by decide) rfl (by decide) rfl (by decide)
    sampleEmployee1 (by simp [sampleStore]) (by decide)

/-- Shared helper: with a present but unmappable department code the hire
handler fails with `validationError` (whatever the other fields are, every
failure before the insert is a `validationError`) and the store is
unchanged. -/
lemma hireCore_invalid_dept
    (today : Date) (s : Store) (f : Form) (ds : String)
    (hds : f.department = some ds)
    (hdep : Department.fromKey? ds = none) :
    hireCore today s f = .error .validationError
      ∧ (hirePost today s f).1 = s := by
  have hcore : hireCore today s f = .error .validationError := by
    rcases hfn : f.first_name with _ | fn <;>
      rcases hln : f.last_name with _ | ln <;>
        rcases hem : f.email with _ | em <;>
          simp [hireCore, hfn, hln, hem, hds, hdep, Option.bind]
  exact ⟨hcore, by simp [hirePost, hcore]⟩

/-- C4: hiring with a department code outside the fixed enumeration fails
with `validationError` and persists nothing: the store is unchanged. -/
theorem hire_invalid_department
    (today : Date) (s : Store) (f : Form) (ds : String)
    (hds : f.department = some ds)
    (hdep : Department.fromKey? ds = none) :
    hireCore today s f = .error .validationError
      ∧ (hirePost today s f).1 = s :=
  hireCore_invalid_dept today s f ds hds hdep

/-- C4 witness: hiring with the display value `"Engineering"` as the code. -/
theorem hire_invalid_department_witness :
    hireCore sampleToday sampleStore
        { sampleForm with department := some "Engineering" }
        = .error .validationError
      ∧ (hirePost sampleToday sampleStore
          { sampleForm with department := some "Engineering" }).1
          = sampleStore :=
  hire_invalid_department sampleToday sampleStore
    { sampleForm with department := some "Engineering" }
    "Engineering" rfl (by decide)

/-- Shared helper: the empty needle occurs in every haystack. -/
lemma containsSub_nil (l : List Char) : containsSub [] l = true := by
  cases l <;> simp [containsSub, startsWith, List.isEmpty]

/-- Shared helper: the empty query matches every email. -/
lemma containsCI_empty (hay : String) : containsCI hay "" = true := by
  simp [containsCI, containsSub_nil]

/-- Shared helper: a prefix check against the empty text succeeds exactly for
the empty pattern. -/
lemma startsWith_nil_right (p : List Char) :
    startsWith p [] = p.isEmpty := by
  cases p <;> simp [startsWith, List.isEmpty]

/-- Shared helper: defining equation of `likeMatch` on the empty pattern. -/
lemma likeMatch_nil_pat (t : List Char) : likeMatch [] t = t.isEmpty := by
  rw [likeMatch.eq_def]

/-- Shared helper: defining equation of `likeMatch` on a leading `%`. -/
lemma likeMatch_pct (p t : List Char) :
    likeMatch ('%' :: p) t = anySuffix (fun u => likeMatch p u) t := by
  rw [likeMatch.eq_def]
  simp

/-- Shared helper: a literal pattern character never matches the empty
text. -/
lemma likeMatch_lit_nil {c : Char} (hc1 : c ≠ '%') (hc2 : c ≠ '_')
    (hc3 : c ≠ '\\') (p : List Char) : likeMatch (c :: p) [] = false := by
  rw [likeMatch.eq_def]
  simp [hc1, hc2, hc3]

/-- Shared helper: a literal pattern character matches one equal text
character. -/
lemma likeMatch_lit_cons {c : Char} (hc1 : c ≠ '%') (hc2 : c ≠ '_')
    (hc3 : c ≠ '\\') (p : List Char) (d : Char) (t2 : List Char) :
    likeMatch (c :: p) (d :: t2) = (c == d && likeMatch p t2) := by
  rw [likeMatch.eq_def]
  simp [hc1, hc2, hc3]

/-- Shared helper: some suffix of every text is empty. -/
lemma anySuffix_isEmpty (t : List Char) :
    anySuffix (fun u : List Char => u.isEmpty) t = true := by
  induction t with
  | nil => simp [anySuffix]
  | cons c t ih => simp [anySuffix, ih]

/-- Shared helper: a metacharacter-free pattern followed by `%` matches
exactly the texts it is a literal prefix of. -/
lemma likeMatch_append_pct {p : List Char} (hp : noLikeMeta p)
    (t : List Char) : likeMatch (p ++ ['%']) t = startsWith p t := by
  induction p generalizing t with
  | nil =>
    rw [List.nil_append, likeMatch_pct]
    simp only [likeMatch_nil_pat]
    simp [anySuffix_isEmpty, startsWith]
  | cons c p ih =>
    obtain ⟨hc1, hc2, hc3⟩ := hp c (by simp)
    have hp2 : noLikeMeta p := fun d hd => hp d (by simp [hd])
    cases t with
    | nil =>
      rw [List.cons_append, likeMatch_lit_nil hc1 hc2 hc3]
      simp [startsWith]
    | cons d t2 =>
      rw [List.cons_append, likeMatch_lit_cons hc1 hc2 hc3]
      simp [startsWith, ih hp2]

/-- Shared helper: trying a literal-prefix check at every suffix is substring
containment. -/
lemma anySuffix_startsWith (p t : List Char) :
    anySuffix (fun u => startsWith p u) t = containsSub p t := by
  induction t with
  | nil => simp [anySuffix, containsSub, startsWith_nil_right]
  | cons c t ih => simp [anySuffix, containsSub, ih]

/-- Shared helper: wrapping a metacharacter-free pattern in `%...%` matches
exactly the texts containing it as a literal substring. -/
lemma likeMatch_pct_wrap {p : List Char} (hp : noLikeMeta p)
    (t : List Char) :
    likeMatch ('%' :: (p ++ ['%'])) t = containsSub p t := by
  rw [likeMatch_pct]
  simp only [likeMatch_append_pct hp]
  exact anySuffix_startsWith p t

/-- Shared helper: ASCII lowercasing cannot produce a character outside the
lowercase-letter range, so it preserves being distinct from one. -/
lemma toLower_ne_of_ne {c t : Char} (ht : t.toNat < 97 ∨ 122 < t.toNat)
    (h : c ≠ t) : Char.toLower c ≠ t := by
  unfold Char.toLower
  by_cases hr : c.toNat ≥ 65 ∧ c.toNat ≤ 90
  · rw [if_pos hr]
    intro hc
    have hv : (c.toNat + 32).isValidChar := Or.inl (by omega)
    have htn : (Char.ofNat (c.toNat + 32)).toNat = c.toNat + 32 := by
      rw [Char.ofNat, dif_pos hv]
      simp [Char.ofNatAux, Char.toNat, UInt32.toNat, BitVec.toNat_ofNatLt]
    rw [hc] at htn
    omega
  · rw [if_neg hr]
    exact h

/-- Shared helper: lowercasing preserves metacharacter-freeness. -/
lemma noLikeMeta_map_toLower {cs : List Char} (h : noLikeMeta cs) :
    noLikeMeta (cs.map Char.toLower) := by
  intro c hc
  obtain ⟨d, hd, rfl⟩ := List.mem_map.mp hc
  obtain ⟨h1, h2, h3⟩ := h d hd
  exact ⟨toLower_ne_of_ne (by decide) h1, toLower_ne_of_ne (by decide) h2,
    toLower_ne_of_ne (by decide) h3⟩

/-- Shared helper: on queries without `LIKE` metacharacters the `ilike` match
is exactly literal case-insensitive substring containment. -/
lemma emailIlike_eq_containsCI {q : String} (hq : noLikeMeta q.data)
    (email : String) : emailIlike email q = containsCI email q := by
  unfold emailIlike containsCI ilikePattern
  have hmap : (('%' :: (q.data ++ ['%'])).map Char.toLower)
      = '%' :: (q.data.map Char.toLower ++ ['%']) := by
    simp [show Char.toLower '%' = '%' from by decide]
  rw [hmap]
  exact likeMatch_pct_wrap (noLikeMeta_map_toLower hq) _

/-- Shared helper: filtering a list with pairwise-distinct ids for one id
keeps at most one element. -/
lemma length_filter_id_le_one {l : List Employee}
    (h : (l.map (·.id)).Nodup) (n : Nat) :
    (l.filter (fun e => e.id == n)).length ≤ 1 := by
  induction l with
  | nil => simp
  | cons x xs ih =>
    rw [List.map_cons, List.nodup_cons] at h
    by_cases hx : x.id = n
    · have hnil : xs.filter (fun e => e.id == n) = [] := by
        rw [List.filter_eq_nil_iff]
        intro e he hc
        exact h.1 (List.mem_map.mpr ⟨e, he, by simpa [hx] using hc⟩)
      simp [List.filter_cons, hx, hnil]
    · simpa [List.filter_cons, hx] using ih h.2

/-- C3 counterexample: the search is an SQL `ILIKE` against the pattern
`%q%`, not a literal substring match.  For the query `"%"` (nonempty,
non-digit) the built pattern `%%%` matches every email, so the listing
returns a record whose email does not contain `'%'` at all — refuting
"returns exactly the records whose email contains the query as a
case-insensitive substring". -/
theorem index_search_substring_cex :
    ("%" : String) ≠ "" ∧ isdigitStr "%" = false
      ∧ sampleEmployee1 ∈ index sampleStore (some "%")
      ∧ containsCI sampleEmployee1.email "%" = false := by
  refine ⟨by decide, by decide, by decide, by decide⟩

/-- C3 amended: with no query (or the empty query, which Python treats as
falsy) the result is all rows sorted by descending id; a nonempty digit-only
query returns the rows whose id equals its numeric value — at most one in a
well-formed store; any other nonempty query returns exactly the rows whose
email matches the `ILIKE` pattern `%q%` case-insensitively, where `%` and `_`
in the query act as wildcards and `\` escapes — which coincides with
case-insensitive substring containment whenever the query has no
metacharacter; the empty query's result set also coincides with the
(trivially all-matching) empty substring search.  No case can error on zero
matches. -/
theorem index_search_spec (s : Store) (q : String) (hwf : s.WF) :
    ((index s none).Perm s.rows ∧ List.Sorted byIdDesc (index s none))
      ∧ (q ≠ "" → isdigitStr q = true →
          index s (some q) = s.rows.filter (fun e => e.id == digitsToNat q.data)
            ∧ (index s (some q)).length ≤ 1
            ∧ ∀ e ∈ index s (some q), e.id = digitsToNat q.data)
      ∧ (q ≠ "" → isdigitStr q = false →
          ∀ e, e ∈ index s (some q) ↔ e ∈ s.rows ∧ emailIlike e.email q = true)
      ∧ (noLikeMeta q.data → ∀ em, emailIlike em q = containsCI em q)
      ∧ (∀ e, e ∈ index s (some "")
          ↔ e ∈ s.rows ∧ containsCI e.email "" = true) := by
  refine ⟨⟨List.perm_insertionSort byIdDesc s.rows,
          List.sorted_insertionSort byIdDesc s.rows⟩, ?_, ?_, ?_, ?_⟩
  · intro hne hdig
    have heq : index s (some q)
        = s.rows.filter (fun e => e.id == digitsToNat q.data) := by
      simp [index, hne, hdig]
    refine ⟨heq, ?_, ?_⟩
    · rw [heq]
      exact length_filter_id_le_one hwf.1 _
    · intro e he
      rw [heq] at he
      simpa using (List.mem_filter.mp he).2
  · intro hne hdig e
    have heq : index s (some q)
        = s.rows.filter (fun e => emailIlike e.email q) := by
      simp [index, hne, hdig]
    rw [heq, List.mem_filter]
  · intro hq em
    exact emailIlike_eq_containsCI hq em
  · intro e
    have heq : index s (some "") = sortByIdDesc s.rows := by
      simp [index]
    rw [heq, mem_sortByIdDesc]
    simp [containsCI_empty]

/-- C3 witness: searches over the two-row store with the metacharacter-free
query `"2"`. -/
theorem index_search_spec_witness :
    ((index sampleStore none).Perm sampleStore.rows
        ∧ List.Sorted byIdDesc (index sampleStore none))
      ∧ ("2" ≠ "" → isdigitStr "2" = true →
          index sampleStore (some "2")
              = sampleStore.rows.filter (fun e => e.id == digitsToNat "2".data)
            ∧ (index sampleStore (some "2")).length ≤ 1
            ∧ ∀ e ∈ index sampleStore (some "2"), e.id = digitsToNat "2".data)
      ∧ ("2" ≠ "" → isdigitStr "2" = false →
          ∀ e, e ∈ index sampleStore (some "2")
            ↔ e ∈ sampleStore.rows ∧ emailIlike e.email "2" = true)
      ∧ (noLikeMeta ("2" : String).data →
          ∀ em, emailIlike em "2" = containsCI em "2")
      ∧ (∀ e, e ∈ index sampleStore (some "")
          ↔ e ∈ sampleStore.rows ∧ containsCI e.email "" = true) :=
  index_search_spec sampleStore "2" (by decide)

/-- C5 counterexample: the code never checks the sign of the parsed salary.
Hiring with salary text `"-1"` (all other fields valid, empty store) succeeds
with a redirect and persists a record whose salary is `-1 < 0`, refuting both
"parses to a negative value fails with ValidationError" and "no record with a
negative salary is ever persisted". -/
theorem salary_negative_persisted_cex :
    (hirePost sampleToday emptyStore
        { sampleForm with salary := some "-1" }).2 = .redirectIndex
      ∧ (hirePost sampleToday emptyStore
          { sampleForm with salary := some "-1" }).1.rows.map (fun r => r.salary)
          = [-1]
      ∧ (-1 : Rat) < 0 := by
  refine ⟨by decide, by decide, by decide⟩

/-- C5 amended: the salary field must parse as a number — if `float` fails the
operation (hire or edit alike) fails with `validationError` and the persisted
store is unchanged — but a parseable negative salary is accepted (see the
counterexample), so non-negativity is not enforced. -/
theorem salary_parse_failure_amended
    (s : Store) (f : Form) (t : String)
    (hts : f.salary = some t) (hparse : pyFloat t = none) :
    (∀ today fn ln em ds dep,
        f.first_name = some fn → f.last_name = some ln → f.email = some em →
        f.department = some ds → Department.fromKey? ds = some dep →
        hireCore today s f = .error .validationError
          ∧ (hirePost today s f).1 = s)
      ∧ (∀ i r fn ln em ds dep,
          s.rows.find? (fun x => x.id == i) = some r →
          f.first_name = some fn → f.last_name = some ln → f.email = some em →
          f.department = some ds → Department.fromKey? ds = some dep →
          edit s i f
            = (.failed .validationError
                { r with first_name := fn, last_name := ln, email := em,
                         department := dep }, s)) := by
  constructor
  · intro today fn ln em ds dep hfn hln hem hds hdep
    have hcore : hireCore today s f = .error .validationError := by
      simp [hireCore, hfn, hln, hem, hds, hdep, hts, hparse, Option.bind]
    exact ⟨hcore, by simp [hirePost, hcore]⟩
  · intro i r fn ln em ds dep hfind hfn hln hem hds hdep
    simp [edit, hfind, editFields, hfn, hln, hem, hds, hdep, hts, hparse,
      Option.bind]

/-- C5 amended witness: salary text `"abc"` fails to parse, for both the hire
handler and an edit of row 1 of the two-row store. -/
theorem salary_parse_failure_amended_witness :
    (hireCore sampleToday sampleStore { sampleForm with salary := some "abc" }
        = .error .validationError
      ∧ (hirePost sampleToday sampleStore
          { sampleForm with salary := some "abc" }).1 = sampleStore)
      ∧ edit sampleStore 1 { sampleForm with salary := some "abc" }
          = (.failed .validationError
              { sampleEmployee1 with first_name := "Ann", last_name := "Lee",
                                     email := "ann@x.com",
                                     department := .ENGINEERING },
             sampleStore) :=
  ⟨(salary_parse_failure_amended sampleStore
      { sampleForm with salary := some "abc" } "abc" rfl (by decide)).1
      sampleToday "Ann" "Lee" "ann@x.com" "ENGINEERING" .ENGINEERING
      rfl rfl rfl rfl (by decide),
   (salary_parse_failure_amended sampleStore
      { sampleForm with salary := some "abc" } "abc" rfl (by decide)).2
      1 sampleEmployee1 "Ann" "Lee" "ann@x.com" "ENGINEERING" .ENGINEERING
      (by decide) rfl rfl rfl rfl (by decide)⟩

/-- C6: when no row has the requested id, the edit POST handler and the fire
handler both fail with `notFoundError` (the 404 of `get_or_404`) and leave
the store unchanged. -/
theorem edit_fire_missing_id
    (s : Store) (i : Nat) (f : Form)
    (h : ∀ r ∈ s.rows, r.id ≠ i) :
    edit s i f = (.notFound, s) ∧ fire s i = (.notFound, s) := by
  have hfind : s.rows.find? (fun r => r.id == i) = none := by
    rw [List.find?_eq_none]
    intro r hr
    simpa using h r hr
  have hany : (s.rows.any fun r => r.id == i) = false := by
    rw [List.any_eq_false]
    intro r hr
    simpa using h r hr
  exact ⟨by simp [edit, hfind], by simp [fire, hany]⟩

/-- C6 witness: id 7 is absent from the two-row store. -/
theorem edit_fire_missing_id_witness :
    edit sampleStore 7 sampleForm = (.notFound, sampleStore)
      ∧ fire sampleStore 7 = (.notFound, sampleStore) :=
  edit_fire_missing_id sampleStore 7 sampleForm (by decide)

/-- C7: firing an id that is present deletes exactly the rows with that id
and redirects: afterwards the listing contains no record with that id, every
other record is still present (and nothing new appears), and re-firing the
same id fails with `notFoundError` leaving the store unchanged. -/
theorem fire_removes_record
    (s : Store) (i : Nat) (r : Employee)
    (hr : r ∈ s.rows) (hid : r.id = i) :
    (fire s i).1 = .redirect
      ∧ (fire s i).2.rows = s.rows.filter (fun x => x.id != i)
      ∧ (∀ x ∈ (fire s i).2.rows, x.id ≠ i)
      ∧ (∀ x ∈ s.rows, x.id ≠ i → x ∈ (fire s i).2.rows)
      ∧ (∀ x ∈ (fire s i).2.rows, x ∈ s.rows)
      ∧ (∀ x ∈ index (fire s i).2 none, x.id ≠ i)
      ∧ fire (fire s i).2 i = (.notFound, (fire s i).2) := by
  have hany : (s.rows.any fun x => x.id == i) = true :=
    List.any_eq_true.mpr ⟨r, hr, by simp [hid]⟩
  have hfire : fire s i
      = (.redirect, { s with rows := s.rows.filter (fun x => x.id != i) }) := by
    simp [fire, hany]
  rw [hfire]
  have hnotin : ∀ x ∈ s.rows.filter (fun x => x.id != i), x.id ≠ i := by
    intro x hx
    simpa using (List.mem_filter.mp hx).2
  have hany2 :
      ((s.rows.filter (fun x => x.id != i)).any fun x => x.id == i)
        = false := by
    rw [List.any_eq_false]
    intro x hx
    simpa using hnotin x hx
  refine ⟨rfl, rfl, hnotin, ?_, ?_, ?_, ?_⟩
  · intro x hx hxi
    exact List.mem_filter.mpr ⟨hx, by simpa using hxi⟩
  · intro x hx
    exact (List.mem_filter.mp hx).1
  · intro x hx
    exact hnotin x (by simpa [index, mem_sortByIdDesc] using hx)
  · simp [fire, hany2]

/-- C7 witness: firing id 1 from the two-row store. -/
theorem fire_removes_record_witness :
    (fire sampleStore 1).1 = .redirect
      ∧ (fire sampleStore 1).2.rows
          = sampleStore.rows.filter (fun x => x.id != 1)
      ∧ (∀ x ∈ (fire sampleStore 1).2.rows, x.id ≠ 1)
      ∧ (∀ x ∈ sampleStore.rows, x.id ≠ 1 → x ∈ (fire sampleStore 1).2.rows)
      ∧ (∀ x ∈ (fire sampleStore 1).2.rows, x ∈ sampleStore.rows)
      ∧ (∀ x ∈ index (fire sampleStore 1).2 none, x.id ≠ 1)
      ∧ fire (fire sampleStore 1).2 1 = (.notFound, (fire sampleStore 1).2) :=
  fire_removes_record sampleStore 1 sampleEmployee1
    (by simp [sampleStore]) (by decide)

/-- C8: when an edit of an existing record fails validation at the
department, salary or hire-date field, the handler reports the error and the
persisted store is unchanged, but the in-memory record keeps the mutations of
the fields processed earlier in the fixed order (first name, last name,
email, department, salary, hire date) — nothing is rolled back. -/
theorem edit_in_memory_mutation
    (s : Store) (i : Nat) (f : Form) (r : Employee) (fn ln em : String)
    (hfind : s.rows.find? (fun x => x.id == i) = some r)
    (hfn : f.first_name = some fn) (hln : f.last_name = some ln)
    (hem : f.email = some em) :
    (f.department.bind Department.fromKey? = none →
        edit s i f
          = (.failed .validationError
              { r with first_name := fn, last_name := ln, email := em }, s))
      ∧ (∀ dep, f.department.bind Department.fromKey? = some dep →
          f.salary.bind pyFloat = none →
          edit s i f
            = (.failed .validationError
                { r with first_name := fn, last_name := ln, email := em,
                         department := dep }, s))
      ∧ (∀ dep sal, f.department.bind Department.fromKey? = some dep →
          f.salary.bind pyFloat = some sal →
          f.hire_date.bind parseDateYMD = none →
          edit s i f
            = (.failed .validationError
                { r with first_name := fn, last_name := ln, email := em,
                         department := dep, salary := sal }, s)) := by
  refine ⟨?_, ?_, ?_⟩
  · intro hdep
    simp [edit, hfind, editFields, hfn, hln, hem, hdep]
  · intro dep hdep hsal
    simp [edit, hfind, editFields, hfn, hln, hem, hdep, hsal]
  · intro dep sal hdep hsal hhd
    simp [edit, hfind, editFields, hfn, hln, hem, hdep, hsal, hhd]

/-- C8 witness: editing row 1 with the unknown department code
`"IT Support"` mutates name and email on the in-memory record but leaves the
store unchanged. -/
theorem edit_in_memory_mutation_witness :
    edit sampleStore 1
        { first_name := some "Anna", last_name := some "Li",
          email := some "anna@x.com", department := some "IT Support",
          salary := some "95000", hire_date := some "2024-01-15" }
      = (.failed .validationError
          { sampleEmployee1 with first_name := "Anna", last_name := "Li",
                                 email := "anna@x.com" },
         sampleStore) :=
  (edit_in_memory_mutation sampleStore 1
      { first_name := some "Anna", last_name := some "Li",
        email := some "anna@x.com", department := some "IT Support",
        salary := some "95000", hire_date := some "2024-01-15" }
      sampleEmployee1 "Anna" "Li" "anna@x.com"
      (by decide) rfl rfl rfl).1 (by decide)

/-- C9 counterexample: a hire input with the hire-date field unspecified does
not persist a record with the current date — the handler's
`request.form['hire_date']` raises (`validationError`) and nothing at all is
persisted (the store stays empty). -/
theorem hire_date_missing_cex :
    ({ sampleForm with hire_date := none } : Form).hire_date = none
      ∧ hireCore sampleToday emptyStore { sampleForm with hire_date := none }
          = .error .validationError
      ∧ (hirePost sampleToday emptyStore
          { sampleForm with hire_date := none }).1.rows = [] := by
  refine ⟨rfl, rfl, rfl⟩

/-- C9 amended: the current-date default lives at the store layer — a record
created without a hire date gets `today` from the column default — but the
hire handler itself requires the `hire_date` form field: when it is
unspecified, the hire fails with `validationError` and persists nothing. -/
theorem hire_date_default_amended :
    (∀ today s fn ln em dep sal, (∀ r ∈ s.rows, r.email ≠ em) →
        ∃ s2 e, insertEmployee today s fn ln em dep sal none = .ok (s2, e)
          ∧ e.hire_date = today)
      ∧ (∀ today s f, f.hire_date = none →
          hireCore today s f = .error .validationError
            ∧ (hirePost today s f).1 = s) := by
  constructor
  · intro today s fn ln em dep sal hfresh
    have hany : ¬ ∃ x ∈ s.rows, x.email = em := by
      rintro ⟨x, hx, hxe⟩
      exact hfresh x hx hxe
    have hins : insertEmployee today s fn ln em dep sal none
        = .ok ({ rows := s.rows ++
                   [{ id := s.nextId, first_name := fn, last_name := ln,
                      email := em, department := dep, salary := sal,
                      hire_date := today }],
                 nextId := s.nextId + 1 },
               { id := s.nextId, first_name := fn, last_name := ln,
                 email := em, department := dep, salary := sal,
                 hire_date := today }) := by
      simp [insertEmployee, hany, Option.getD]
    exact ⟨_, _, hins, rfl⟩
  · intro today s f hhd
    have hcore : hireCore today s f = .error .validationError := by
      rcases hfn : f.first_name with _ | fn <;>
        rcases hln : f.last_name with _ | ln <;>
          rcases hem : f.email with _ | em <;>
            rcases hdep : f.department.bind Department.fromKey? with _ | dep <;>
              rcases hsal : f.salary.bind pyFloat with _ | sal <;>
                simp [hireCore, hfn, hln, hem, hdep, hsal, hhd]
    exact ⟨hcore, by simp [hirePost, hcore]⟩

/-- C9 amended witness: the column default fills in today's date on a direct
store insert without a hire date, and the hire handler rejects the form whose
hire-date field is unspecified. -/
theorem hire_date_default_amended_witness :
    (∃ s2 e, insertEmployee sampleToday emptyStore "Ann" "Lee" "ann@x.com"
          .ENGINEERING 90000 none = .ok (s2, e)
        ∧ e.hire_date = sampleToday)
      ∧ (hireCore sampleToday sampleStore { sampleForm with hire_date := none }
            = .error .validationError
          ∧ (hirePost sampleToday sampleStore
              { sampleForm with hire_date := none }).1 = sampleStore) :=
  ⟨hire_date_default_amended.1 sampleToday emptyStore "Ann" "Lee" "ann@x.com"
      .ENGINEERING 90000 (by simp [emptyStore]),
   hire_date_default_amended.2 sampleToday sampleStore
      { sampleForm with hire_date := none } rfl⟩

/-- Shared helper: an edit whose department code is present but unmappable
never commits: the outcome is not the success redirect and the persisted
store is unchanged. -/
lemma edit_invalid_dept
    (s : Store) (i : Nat) (f : Form) (c : String)
    (hds : f.department = some c)
    (hdep : Department.fromKey? c = none) :
    (edit s i f).1 ≠ .okRedirect ∧ (edit s i f).2 = s := by
  rcases hfind : s.rows.find? (fun x => x.id == i) with _ | r
  · simp [edit, hfind]
  · rcases hfn : f.first_name with _ | fn <;>
      rcases hln : f.last_name with _ | ln <;>
        rcases hem : f.email with _ | em <;>
          simp [edit, hfind, editFields, hfn, hln, hem, hds, hdep, Option.bind]

/-- C10: the accepted department codes are exactly the enumeration member
names HR, ENGINEERING, SALES, MARKETING, FINANCE, IT; the code `"IT"` selects
the IT Support department; display values such as `"Engineering"` and
`"IT Support"` are unknown codes, and submitting one makes hire fail with
`validationError` (store unchanged) and makes edit fail to commit (store
unchanged). -/
theorem department_codes_spec :
    (∀ c, (Department.fromKey? c).isSome = true ↔ c ∈ Department.names)
      ∧ Department.fromKey? "IT" = some .IT
      ∧ Department.IT.value = "IT Support"
      ∧ Department.fromKey? "Engineering" = none
      ∧ Department.fromKey? "IT Support" = none
      ∧ (∀ today s f c, f.department = some c →
          Department.fromKey? c = none →
          hireCore today s f = .error .validationError
            ∧ (hirePost today s f).1 = s)
      ∧ (∀ s i f c, f.department = some c →
          Department.fromKey? c = none →
          (edit s i f).1 ≠ .okRedirect ∧ (edit s i f).2 = s) := by
  refine ⟨?_, by decide, by decide, by decide, by decide, ?_, ?_⟩
  · intro c
    simp only [Department.fromKey?, Department.names, List.mem_cons,
      List.not_mem_nil, or_false]
    split_ifs <;> simp_all
  · intro today s f c hds hdep
    exact hireCore_invalid_dept today s f c hds hdep
  · intro s i f c hds hdep
    exact edit_invalid_dept s i f c hds hdep

/-- C10 witness: instantiation at the display value `"IT Support"` for both
handlers, and the code list facts. -/
theorem department_codes_spec_witness :
    ((Department.fromKey? "HR").isSome = true ↔ "HR" ∈ Department.names)
      ∧ (hireCore sampleToday sampleStore
            { sampleForm with department := some "IT Support" }
            = .error .validationError
          ∧ (hirePost sampleToday sampleStore
              { sampleForm with department := some "IT Support" }).1
              = sampleStore)
      ∧ ((edit sampleStore 1
            { sampleForm with department := some "IT Support" }).1
            ≠ .okRedirect
          ∧ (edit sampleStore 1
              { sampleForm with department := some "IT Support" }).2
              = sampleStore) :=
  ⟨department_codes_spec.1 "HR",
   department_codes_spec.2.2.2.2.2.1 sampleToday sampleStore
      { sampleForm with department := some "IT Support" } "IT Support"
      rfl (by decide),
   department_codes_spec.2.2.2.2.2.2 sampleStore 1
      { sampleForm with department := some "IT Support" } "IT Support"
      rfl (by decide)⟩

end EmployeeApp
